import Mathlib

/-!
Verification development for the provider-selection core of
Your-PaL-MoE: a shallow embedding of `src/ml/task_reasoning_engine.py`,
`src/selection/dynamic_selector.py` and `src/monitoring/metrics_collector.py`,
followed by theorems about the embedded definitions.  Strings are embedded as
`List Char`, floats as `ℚ`, Python dicts as insertion-ordered association
lists, and raised exceptions as explicit error values.
-/

/- ### Character classes used by the regexes in task_reasoning_engine.py -/

/-- Model of the regex class `[A-Z]`. -/
def isUpperAZ (c : Char) : Bool := 65 ≤ c.toNat && c.toNat ≤ 90

/-- Model of the regex class `[a-z]`. -/
def isLowerAZ (c : Char) : Bool := 97 ≤ c.toNat && c.toNat ≤ 122

/-- Model of the regex class `\d` (ASCII digits). -/
def isDigit09 (c : Char) : Bool := 48 ≤ c.toNat && c.toNat ≤ 57

/-- Model of the regex class `\w`: letters, digits and underscore. -/
def isWordChar (c : Char) : Bool :=
  isUpperAZ c || isLowerAZ c || isDigit09 c || c.toNat == 95

/-- Whitespace as treated by Python `str.split()` (ASCII fragment). -/
def isPySpace (c : Char) : Bool :=
  c.toNat == 32 || c.toNat == 9 || c.toNat == 10 ||
  c.toNat == 13 || c.toNat == 11 || c.toNat == 12

/- ### Small regex fragments (the engine only uses literal alternations,
      `a.*b` searches, and the token-counting patterns below) -/

/-- Model of the Python substring test `needle in haystack`. -/
def isSubList (needle : List Char) : List Char → Bool
  | [] => needle.isEmpty
  | c :: rest => needle.isPrefixOf (c :: rest) || isSubList needle rest

/-- Helper for `a.*b` search: from the current position, either `b` matches
here or `.` consumes one non-newline character. -/
def dotStarThen (b : List Char) : List Char → Bool
  | [] => b.isEmpty
  | c :: rest => b.isPrefixOf (c :: rest) || (c.toNat != 10 && dotStarThen b rest)

/-- Model of `re.search("a.*b", s) is not None` for literal fragments
`a` and `b`. -/
def searchDotStar (a b : List Char) : List Char → Bool
  | [] => a.isEmpty && dotStarThen b []
  | c :: rest =>
    (a.isPrefixOf (c :: rest) && dotStarThen b (List.drop a.length (c :: rest)))
      || searchDotStar a b rest

/-- After the head of a `[a-z]+` run: scans the rest of the run and checks
that the character right after the run is a word boundary (end of string or
a non-word character), following the greedy match with backtracking (a
shorter run always ends right before a lowercase, hence word, character, so
only the maximal run can end at a boundary). -/
def restBoundary : List Char → Bool
  | [] => true
  | c :: rest => if isLowerAZ c then restBoundary rest else !isWordChar c

/-- Does the list start with a nonempty `[a-z]+` run ending at `\b`? -/
def lowerRunBoundary : List Char → Bool
  | [] => false
  | c :: rest => isLowerAZ c && restBoundary rest

/-- Model of `len(re.findall(r"\b[A-Z][a-z]+\b", s))`.  For this pattern two
matches can never overlap (every match starts after a non-word character and
consists of word characters only, and no match can start inside another:
all later characters of a match are lowercase), so the greedy left-to-right
scan of `findall` counts exactly the positions where an uppercase letter
sits at a word boundary and is followed by a lowercase run ending at a word
boundary; `prevIsWord` records whether the character just before the current
position is a word character (for the leading `\b`). -/
def pnCount (prevIsWord : Bool) : List Char → ℕ
  | [] => 0
  | c :: rest =>
    (if isUpperAZ c && !prevIsWord && lowerRunBoundary rest then 1 else 0) +
      pnCount (isWordChar c) rest

/-- Model of `len(re.findall(r"\d+", s))`: the number of maximal runs of
digits. -/
def digitRunCount (prevDigit : Bool) : List Char → ℕ
  | [] => 0
  | c :: rest =>
    if isDigit09 c then (if prevDigit then 0 else 1) + digitRunCount true rest
    else digitRunCount false rest

/-- Model of `len(s.split())`: the number of maximal runs of non-whitespace
characters. -/
def wordCount (inWord : Bool) : List Char → ℕ
  | [] => 0
  | c :: rest =>
    if isPySpace c then wordCount false rest
    else (if inWord then 0 else 1) + wordCount true rest

/- ### ComplexityScore and TaskReasoningEngine
      (src/ml/task_reasoning_engine.py) -/

/-- ComplexityScore dataclass: detailed complexity scoring. -/
structure ComplexityScore where
  reasoning : ℚ := 0
  knowledge : ℚ := 0
  computation : ℚ := 0
  coordination : ℚ := 0
deriving DecidableEq

/-- Property `total_score`. -/
def ComplexityScore.total_score (s : ComplexityScore) : ℚ :=
  (s.reasoning + s.knowledge + s.computation + s.coordination) / 4

/-- Property `complexity_level` (the `.value` strings of `ComplexityLevel`). -/
def ComplexityScore.complexity_level (s : ComplexityScore) : String :=
  if s.total_score < 0.4 then "low"
  else if s.total_score < 0.7 then "medium"
  else "high"

def reasoning_keywords : List String :=
  ["analyze", "explain", "reason", "logic", "because", "therefore",
   "conclude", "infer", "deduce", "argue", "justify", "prove"]

def knowledge_keywords : List String :=
  ["history", "science", "literature", "mathematics", "physics",
   "chemistry", "biology", "geography", "philosophy", "psychology",
   "economics", "politics", "law", "medicine", "technology"]

def computation_keywords : List String :=
  ["calculate", "compute", "solve", "equation", "formula", "algorithm",
   "programming", "code", "debug", "optimize", "data", "statistics"]

def coordination_keywords : List String :=
  ["plan", "schedule", "organize", "coordinate", "manage", "workflow",
   "steps", "process", "sequence", "timeline", "project", "task"]

/-- Alternation branches of the `high_complexity_patterns` regexes; each
pattern matches iff one of its literal branches is a substring. -/
def high_complexity_patterns : List (List String) :=
  [["multi-step", "multiple steps"],
   ["complex", "complicated", "sophisticated"],
   ["detailed analysis", "in-depth"],
   ["comprehensive", "thorough"],
   ["advanced", "expert level"]]

/-- Number of keywords of the list that occur as substrings of the content
(`sum(1 for keyword in keywords if keyword in content)`). -/
def countKeywords (keywords : List String) (content : List Char) : ℕ :=
  (keywords.filter (fun kw => isSubList kw.toList content)).length

/-- Embedding of `TaskReasoningEngine._calculate_reasoning_score`. -/
def calculate_reasoning_score (content : List Char) : ℚ :=
  let keyword_count := countKeywords reasoning_keywords content
  let score : ℚ := min 0.5 ((keyword_count : ℚ) * 0.1)
  let logical_patterns : List (String × String) :=
    [("if", "then"), ("because", "therefore"), ("since", "thus"), ("given", "conclude")]
  let score := score +
    ((logical_patterns.filter
        (fun p => searchDotStar p.1.toList p.2.toList content)).length : ℚ) * 0.2
  let question_words : List String := ["why", "how", "what if", "suppose"]
  let score := score +
    ((question_words.filter (fun w => isSubList w.toList content)).length : ℚ) * 0.15
  min 1 score

/-- Embedding of `TaskReasoningEngine._calculate_knowledge_score`. -/
def calculate_knowledge_score (content : List Char) : ℚ :=
  let keyword_count := countKeywords knowledge_keywords content
  let score : ℚ := min 0.6 ((keyword_count : ℚ) * 0.1)
  let score := score +
    (if (["research", "study", "theory", "concept"] : List String).any
        (fun t => isSubList t.toList content) then 0.2 else 0)
  let score := score + (if 3 < pnCount false content then 0.2 else 0)
  min 1 score

/-- Embedding of `TaskReasoningEngine._calculate_computation_score`. -/
def calculate_computation_score (content : List Char) : ℚ :=
  let keyword_count := countKeywords computation_keywords content
  let score : ℚ := min 0.5 ((keyword_count : ℚ) * 0.15)
  let score := score + (if 2 < digitRunCount false content then 0.2 else 0)
  let math_operators : List Char := ['+', '-', '*', '/', '=', '<', '>', '%']
  let score := score +
    (if math_operators.any (fun op => content.contains op) then 0.2 else 0)
  let score := score +
    (if (["function", "variable", "loop", "condition", "array", "object"] :
        List String).any (fun t => isSubList t.toList content) then 0.3 else 0)
  min 1 score

/-- Embedding of `TaskReasoningEngine._calculate_coordination_score`. -/
def calculate_coordination_score (content : List Char) : ℚ :=
  let keyword_count := countKeywords coordination_keywords content
  let score : ℚ := min 0.4 ((keyword_count : ℚ) * 0.1)
  let sequential_terms : List String :=
    ["first", "second", "third", "next", "then", "finally", "step"]
  let seq_count := countKeywords sequential_terms content
  let score := score + (if 2 < seq_count then 0.3 else 0)
  let score := score +
    (if (["coordinate", "collaborate", "integrate", "combine", "merge"] :
        List String).any (fun t => isSubList t.toList content) then 0.3 else 0)
  min 1 score

/-- Embedding of `TaskReasoningEngine._get_length_modifier` (applied to the original,
non-lowercased content). -/
def get_length_modifier (content : List Char) : ℚ :=
  let word_count := wordCount false content
  if word_count < 10 then 0.8
  else if word_count < 50 then 1.0
  else if word_count < 200 then 1.2
  else 1.4

/-- Embedding of `TaskReasoningEngine._get_pattern_modifier`. -/
def get_pattern_modifier (content : List Char) : ℚ :=
  let matched := (high_complexity_patterns.filter
    (fun alts => alts.any (fun t => isSubList t.toList content))).length
  min 2 (1 + (matched : ℚ) * 0.2)

/-- Typed view of the `context` dict of `analyze_complexity`. -/
structure ComplexityContext where
  complexity_hint : Option String := none
  domain : Option String := none

/-- Embedding of `TaskReasoningEngine._get_context_modifier`: the hint assignment followed
by the domain multiplication. -/
def get_context_modifier (context : ComplexityContext) (dimension : String) : ℚ :=
  let m : ℚ :=
    match context.complexity_hint with
    | some h =>
      if h ≠ "" then
        if (["high", "complex", "advanced"] : List String).contains h.toLower then 1.5
        else if (["low", "simple", "basic"] : List String).contains h.toLower then 0.7
        else 1
      else 1
    | none => 1
  match context.domain with
  | some d =>
    if d ≠ "" then
      if dimension = "knowledge" ∧
          (["academic", "research", "technical"] : List String).contains d.toLower then
        m * 1.3
      else if dimension = "computation" ∧
          (["programming", "math", "engineering"] : List String).contains d.toLower then
        m * 1.4
      else m
    else m
  | none => m

/-- Embedding of `TaskReasoningEngine.analyze_complexity`. -/
def analyze_complexity (content : List Char) (context : Option ComplexityContext) :
    ComplexityScore :=
  let content_lower := content.map Char.toLower
  let reasoning_score := calculate_reasoning_score content_lower
  let knowledge_score := calculate_knowledge_score content_lower
  let computation_score := calculate_computation_score content_lower
  let coordination_score := calculate_coordination_score content_lower
  let reasoning_score :=
    match context with
    | some ctx => reasoning_score * get_context_modifier ctx "reasoning"
    | none => reasoning_score
  let knowledge_score :=
    match context with
    | some ctx => knowledge_score * get_context_modifier ctx "knowledge"
    | none => knowledge_score
  let computation_score :=
    match context with
    | some ctx => computation_score * get_context_modifier ctx "computation"
    | none => computation_score
  let coordination_score :=
    match context with
    | some ctx => coordination_score * get_context_modifier ctx "coordination"
    | none => coordination_score
  let length_modifier := get_length_modifier content
  let pattern_modifier := get_pattern_modifier content_lower
  { reasoning := min 1 (reasoning_score * length_modifier * pattern_modifier)
    knowledge := min 1 (knowledge_score * length_modifier * pattern_modifier)
    computation := min 1 (computation_score * length_modifier * pattern_modifier)
    coordination := min 1 (coordination_score * length_modifier * pattern_modifier) }

/- ### Provider configuration (src/config/csv_provider_loader.py) -/

/-- ProviderTier enum. -/
inductive ProviderTier
  | official
  | community
  | unofficial
deriving DecidableEq

/-- Model of the Python `ProviderTier(tier)` enum constructor: succeeds on the
three value strings and raises ValueError otherwise. -/
def ProviderTier.ofString : String → Except String ProviderTier
  | "official" => .ok .official
  | "community" => .ok .community
  | "unofficial" => .ok .unofficial
  | _ => .error "ValueError"

/-- ProviderConfig dataclass: configuration for an AI provider. -/
structure ProviderConfig where
  name : String
  tier : ProviderTier
  base_url : String
  api_key : String
  models : List String
  timeout : ℤ := 30
  max_requests_per_minute : ℤ := 60
  cost_per_1k_tokens : ℚ := 0.002
  priority : ℤ := 1
  health_score : ℚ := 1.0
  other : String := ""
deriving DecidableEq

/- ### Dynamic provider selection (src/selection/dynamic_selector.py) -/

/-- ProviderPerformance dataclass (the wall-clock `last_updated` field is
outside the model). -/
structure ProviderPerformance where
  name : String
  success_rate : ℚ := 1.0
  avg_response_time : ℚ := 1.0
  avg_cost_efficiency : ℚ := 1.0
  request_count : ℕ := 0
deriving DecidableEq

/-- Lookup in an insertion-ordered association list (Python dict read). -/
def getAssoc {β : Type} (l : List (String × β)) (k : String) : Option β :=
  match l with
  | [] => none
  | (k', v) :: rest => if k' = k then some v else getAssoc rest k

/-- Model of Python dict assignment `d[k] = v`: overwrite in place if the key
exists, append otherwise. -/
def setAssoc {β : Type} (l : List (String × β)) (k : String) (v : β) :
    List (String × β) :=
  match l with
  | [] => [(k, v)]
  | (k', v') :: rest =>
    if k' = k then (k', v) :: rest else (k', v') :: setAssoc rest k v

/-- ProviderSelector state: the registry dict and the performance dict
(logger omitted). -/
structure ProviderSelector where
  providers : List (String × ProviderConfig)
  performance_metrics : List (String × ProviderPerformance)
deriving DecidableEq

/-- Embedding of `ProviderSelector.__init__`: a fresh performance record per registered
provider name. -/
def ProviderSelector.init (providers : List (String × ProviderConfig)) :
    ProviderSelector :=
  { providers := providers
    performance_metrics := providers.map (fun kv => (kv.1, { name := kv.1 })) }

/-- Values reachable in a constraints dict entry (number or string); used to
model malformed constraint values. -/
inductive PyVal
  | num (q : ℚ)
  | str (s : String)
deriving DecidableEq

/-- Python truthiness of a constraint value. -/
def PyVal.truthy : PyVal → Bool
  | .num q => q ≠ 0
  | .str s => s ≠ ""

/-- Python comparison `x > v` for float `x`: raises TypeError if `v` is a
string. -/
def pyGtNum (x : ℚ) : PyVal → Except String Bool
  | .num q => .ok (decide (q < x))
  | .str _ => .error "TypeError"

/-- Typed view of the `constraints` dict of `select_provider`. -/
structure Constraints where
  max_cost_per_1k : Option PyVal := none
  max_timeout : Option PyVal := none
  allowed_tiers : Option (List String) := none
  required_model : Option String := none
  budget_weight : Option PyVal := none
deriving DecidableEq

/-- Model of the list comprehension
`[ProviderTier(tier) for tier in constraints["allowed_tiers"]]`. -/
def parseTiers : List String → Except String (List ProviderTier)
  | [] => .ok []
  | t :: rest =>
    (ProviderTier.ofString t).bind fun tr =>
      (parseTiers rest).map fun l => tr :: l

/-- Budget-constraint check of `_filter_available_providers` (skipped when the
value is falsy; comparing against a string raises). -/
def checkCost (cs : Constraints) (p : ProviderConfig) : Except String Bool :=
  match cs.max_cost_per_1k with
  | none => .ok true
  | some v =>
    if v.truthy then (pyGtNum p.cost_per_1k_tokens v).map (fun b => !b)
    else .ok true

/-- Latency-constraint check of `_filter_available_providers`. -/
def checkTimeout (cs : Constraints) (p : ProviderConfig) : Except String Bool :=
  match cs.max_timeout with
  | none => .ok true
  | some v =>
    if v.truthy then (pyGtNum (p.timeout : ℚ) v).map (fun b => !b)
    else .ok true

/-- Tier-constraint check of `_filter_available_providers`. -/
def checkTiers (cs : Constraints) (p : ProviderConfig) : Except String Bool :=
  match cs.allowed_tiers with
  | none => .ok true
  | some ts =>
    if ts.isEmpty then .ok true
    else (parseTiers ts).map (fun allowed => decide (p.tier ∈ allowed))

/-- Model-constraint check of `_filter_available_providers`. -/
def checkModel (cs : Constraints) (p : ProviderConfig) : Bool :=
  match cs.required_model with
  | none => true
  | some m => if m ≠ "" then p.models.contains m else true

/-- Per-provider body of the loop in
`ProviderSelector._filter_available_providers`: `.ok true` when the provider
is kept, `.ok false` when a `continue` fires, `.error` when a constraint
check raises. -/
def provider_passes (constraints : Option Constraints) (p : ProviderConfig) :
    Except String Bool :=
  if p.tier ≠ ProviderTier.unofficial ∧ p.api_key = "" then .ok false
  else if p.health_score < 0.1 then .ok false
  else
    match constraints with
    | none => .ok true
    | some cs =>
      (checkCost cs p).bind fun costOk =>
        if !costOk then .ok false
        else
          (checkTimeout cs p).bind fun timeoutOk =>
            if !timeoutOk then .ok false
            else
              (checkTiers cs p).bind fun tierOk =>
                if !tierOk then .ok false
                else .ok (checkModel cs p)

/-- Embedding of `ProviderSelector._filter_available_providers`, as the loop over the
registry values; a raised exception aborts the whole loop. -/
def filter_available_providers (constraints : Option Constraints) :
    List ProviderConfig → Except String (List ProviderConfig)
  | [] => .ok []
  | p :: rest =>
    (provider_passes constraints p).bind fun keep =>
      (filter_available_providers constraints rest).map fun l =>
        if keep then p :: l else l

/-- Tier capability vectors of `_calculate_capability_score`
(reasoning, knowledge, computation, coordination). -/
def tier_capabilities : ProviderTier → ℚ × ℚ × ℚ × ℚ
  | .official => (0.9, 0.95, 0.85, 0.8)
  | .community => (0.7, 0.75, 0.8, 0.6)
  | .unofficial => (0.5, 0.6, 0.7, 0.4)

/-- Embedding of `ProviderSelector._calculate_capability_score`. -/
def calculate_capability_score (p : ProviderConfig) (cs : ComplexityScore) : ℚ :=
  let caps := tier_capabilities p.tier
  let reasoning_match := min 1 (caps.1 / max 0.1 cs.reasoning)
  let knowledge_match := min 1 (caps.2.1 / max 0.1 cs.knowledge)
  let computation_match := min 1 (caps.2.2.1 / max 0.1 cs.computation)
  let coordination_match := min 1 (caps.2.2.2 / max 0.1 cs.coordination)
  reasoning_match * 0.3 + knowledge_match * 0.3 +
    computation_match * 0.25 + coordination_match * 0.15

/-- Embedding of `ProviderSelector._calculate_performance_score`. -/
def calculate_performance_score (sel : ProviderSelector) (p : ProviderConfig) : ℚ :=
  match getAssoc sel.performance_metrics p.name with
  | none => 0.5
  | some metrics =>
    let response_time_score := max 0 (1 - metrics.avg_response_time / 10)
    let success_rate_score := metrics.success_rate
    let cost_efficiency_score := metrics.avg_cost_efficiency
    response_time_score * 0.4 + success_rate_score * 0.4 +
      cost_efficiency_score * 0.2

/-- Embedding of `ProviderSelector._calculate_cost_score` (multiplying by a string
`budget_weight` raises TypeError). -/
def calculate_cost_score (p : ProviderConfig) (constraints : Option Constraints) :
    Except String ℚ :=
  let max_cost : ℚ := 0.01
  let cost_score := max 0 (1 - p.cost_per_1k_tokens / max_cost)
  match constraints with
  | none => .ok cost_score
  | some cs =>
    match cs.budget_weight with
    | none => .ok cost_score
    | some v =>
      if v.truthy then
        match v with
        | .num q => .ok (cost_score * q)
        | .str _ => .error "TypeError"
      else .ok cost_score

/-- Tier constants of `_calculate_reliability_score`. -/
def tier_reliability : ProviderTier → ℚ
  | .official => 0.95
  | .community => 0.8
  | .unofficial => 0.6

/-- Embedding of `ProviderSelector._calculate_reliability_score`. -/
def calculate_reliability_score (p : ProviderConfig) : ℚ :=
  let base_score := tier_reliability p.tier
  let reliability_score := base_score * p.health_score
  let rate_limit_factor := min 1 ((p.max_requests_per_minute : ℚ) / 1000)
  reliability_score * (0.8 + 0.2 * rate_limit_factor)

/-- Typed view of the `context` dict of `select_provider`. -/
structure SelectionContext where
  priority : Option String := none
deriving DecidableEq

/-- Weight table of `_calculate_provider_score` after the context-based
adjustments (capability, performance, cost, reliability). -/
def selection_weights (context : Option SelectionContext) : ℚ × ℚ × ℚ × ℚ :=
  match context with
  | none => (0.35, 0.25, 0.25, 0.15)
  | some ctx =>
    if ctx.priority = some "cost" then (0.25, 0.25, 0.4, 0.15)
    else if ctx.priority = some "performance" then (0.35, 0.4, 0.15, 0.15)
    else if ctx.priority = some "quality" then (0.5, 0.25, 0.15, 0.15)
    else (0.35, 0.25, 0.25, 0.15)

/-- Embedding of `ProviderSelector._calculate_provider_score`. -/
def calculate_provider_score (sel : ProviderSelector) (p : ProviderConfig)
    (complexity_score : ComplexityScore) (context : Option SelectionContext)
    (constraints : Option Constraints) : Except String ℚ :=
  let capability_score := calculate_capability_score p complexity_score
  let performance_score := calculate_performance_score sel p
  (calculate_cost_score p constraints).map fun cost_score =>
    let reliability_score := calculate_reliability_score p
    let w := selection_weights context
    capability_score * w.1 + performance_score * w.2.1 +
      cost_score * w.2.2.1 + reliability_score * w.2.2.2

/-- Scoring loop of `select_provider` over the filtered providers, preserving
order. -/
def score_providers (sel : ProviderSelector) (complexity_score : ComplexityScore)
    (context : Option SelectionContext) (constraints : Option Constraints) :
    List ProviderConfig → Except String (List (ProviderConfig × ℚ))
  | [] => .ok []
  | p :: rest =>
    (calculate_provider_score sel p complexity_score context constraints).bind
      fun s =>
        (score_providers sel complexity_score context constraints rest).map
          fun l => (p, s) :: l

/-- First element of the stable descending sort of the scored list: the
earliest entry with the maximal score. -/
def pickBest : List (ProviderConfig × ℚ) → Option (ProviderConfig × ℚ)
  | [] => none
  | x :: rest =>
    some (rest.foldl (fun best y => if best.2 < y.2 then y else best) x)

/-- Embedding of `ProviderSelector.select_provider`; the second component of the result is
the shared state after the call (the method performs no writes), and a
raised exception propagates as `.error`. -/
def select_provider (sel : ProviderSelector) (complexity_score : ComplexityScore)
    (context : Option SelectionContext) (constraints : Option Constraints) :
    Except String (Option ProviderConfig) × ProviderSelector :=
  let res : Except String (Option ProviderConfig) :=
    (filter_available_providers constraints (sel.providers.map Prod.snd)).bind
      fun available =>
        if available.isEmpty then .ok none
        else
          (score_providers sel complexity_score context constraints available).map
            fun provider_scores => (pickBest provider_scores).map Prod.fst
  (res, sel)

/-- Embedding of `ProviderSelector.update_provider_metrics`. -/
def update_provider_metrics (sel : ProviderSelector) (provider_name : String)
    (response_time : ℚ) (success : Bool) (cost_efficiency : ℚ := 1.0) :
    ProviderSelector :=
  let metrics :=
    match getAssoc sel.performance_metrics provider_name with
    | some m => m
    | none => { name := provider_name }
  let alpha : ℚ := 0.1
  let metrics :=
    { metrics with
      avg_response_time := (1 - alpha) * metrics.avg_response_time +
        alpha * response_time
      avg_cost_efficiency := (1 - alpha) * metrics.avg_cost_efficiency +
        alpha * cost_efficiency }
  let metrics :=
    { metrics with
      request_count := metrics.request_count + 1
      success_rate :=
        if success then (1 - alpha) * metrics.success_rate + alpha * 1
        else (1 - alpha) * metrics.success_rate + alpha * 0 }
  { sel with
    performance_metrics := setAssoc sel.performance_metrics provider_name metrics }

/- ### Metrics collection (src/monitoring/metrics_collector.py) -/

/-- RequestMetric dataclass (timestamp supplied by the caller as the value of
`time.time()`). -/
structure RequestMetric where
  timestamp : ℚ
  provider : String
  model : String
  success : Bool
  response_time : ℚ
  cost : ℚ
  input_tokens : ℕ
  output_tokens : ℕ
  complexity_level : String
  error_type : Option String := none
deriving DecidableEq

/-- ProviderMetrics dataclass: aggregated metrics for a provider. -/
structure ProviderMetrics where
  name : String
  total_requests : ℕ := 0
  successful_requests : ℕ := 0
  failed_requests : ℕ := 0
  total_response_time : ℚ := 0
  total_cost : ℚ := 0
  total_tokens : ℕ := 0
  last_request_time : Option ℚ := none
  error_counts : List (String × ℕ) := []
deriving DecidableEq

/-- Per-hour bucket of `hourly_stats`. -/
structure HourStats where
  requests : ℕ := 0
  successes : ℕ := 0
  total_cost : ℚ := 0
  total_response_time : ℚ := 0
  provider_counts : List (String × ℕ) := []
  complexity : List (String × ℕ) := [("low", 0), ("medium", 0), ("high", 0)]
deriving DecidableEq

/-- MetricsCollector state (logger, retention clock and the asynchronous
cleanup task are outside the model). -/
structure MetricsCollector where
  request_metrics : List RequestMetric := []
  provider_metrics : List (String × ProviderMetrics) := []
  hourly_stats : List (String × HourStats) := []
  complexity_stats : List (String × ℕ) := [("low", 0), ("medium", 0), ("high", 0)]
deriving DecidableEq

/-- Model of `d[k] = d.get(k, 0) + 1` on a plain dict. -/
def bumpCount (l : List (String × ℕ)) (k : String) : List (String × ℕ) :=
  match getAssoc l k with
  | none => setAssoc l k 1
  | some n => setAssoc l k (n + 1)

/-- Model of `d[k] += 1` on a plain dict: `none` is a raised KeyError. -/
def dictIncr (l : List (String × ℕ)) (k : String) :
    Option (List (String × ℕ)) :=
  match getAssoc l k with
  | none => none
  | some n => some (setAssoc l k (n + 1))

/-- Field updates of `MetricsCollector._update_provider_metrics` on one
ProviderMetrics record. -/
def bumpProviderMetrics (pm : ProviderMetrics) (m : RequestMetric) :
    ProviderMetrics :=
  let pm :=
    { pm with
      total_requests := pm.total_requests + 1
      total_response_time := pm.total_response_time + m.response_time
      total_cost := pm.total_cost + m.cost
      total_tokens := pm.total_tokens + m.input_tokens + m.output_tokens
      last_request_time := some m.timestamp }
  if m.success then
    { pm with successful_requests := pm.successful_requests + 1 }
  else
    let pm := { pm with failed_requests := pm.failed_requests + 1 }
    match m.error_type with
    | some et => { pm with error_counts := bumpCount pm.error_counts et }
    | none => pm

/-- Embedding of `MetricsCollector._update_provider_metrics`: insert a fresh record if the
provider is unseen, then mutate it in place. -/
def update_provider_metrics_dict (pms : List (String × ProviderMetrics))
    (m : RequestMetric) : List (String × ProviderMetrics) :=
  let pms :=
    match getAssoc pms m.provider with
    | none => setAssoc pms m.provider { name := m.provider }
    | some _ => pms
  match getAssoc pms m.provider with
  | none => pms
  | some pm => setAssoc pms m.provider (bumpProviderMetrics pm m)

/-- Embedding of `MetricsCollector._update_hourly_stats` (the hour key is supplied by the
caller as the value of `strftime`); the Boolean flags a KeyError raised at
the complexity increment, with the mutations made before the raise kept. -/
def update_hourly_stats (hs : List (String × HourStats)) (hour_key : String)
    (m : RequestMetric) : List (String × HourStats) × Bool :=
  let hs :=
    match getAssoc hs hour_key with
    | none => setAssoc hs hour_key {}
    | some _ => hs
  match getAssoc hs hour_key with
  | none => (hs, false)
  | some st =>
    let st :=
      { st with
        requests := st.requests + 1
        total_cost := st.total_cost + m.cost
        total_response_time := st.total_response_time + m.response_time
        provider_counts := bumpCount st.provider_counts m.provider }
    match dictIncr st.complexity m.complexity_level with
    | none => (setAssoc hs hour_key st, true)
    | some cx =>
      let st := { st with complexity := cx }
      let st := if m.success then { st with successes := st.successes + 1 } else st
      (setAssoc hs hour_key st, false)

/-- Embedding of `MetricsCollector.record_request`: returns the collector state when the
call finishes or raises, together with `some "KeyError"` when it raises.
Statements that ran before the raise keep their effects. -/
def record_request (mc : MetricsCollector) (tstamp : ℚ) (hour_key : String)
    (provider_name : String) (model : String) (success : Bool)
    (response_time : ℚ) (cost : ℚ) (input_tokens : ℕ := 0)
    (output_tokens : ℕ := 0) (complexity_level : String := "medium")
    (error_type : Option String := none) :
    MetricsCollector × Option String :=
  let metric : RequestMetric :=
    { timestamp := tstamp
      provider := provider_name
      model := model
      success := success
      response_time := response_time
      cost := cost
      input_tokens := input_tokens
      output_tokens := output_tokens
      complexity_level := complexity_level
      error_type := error_type }
  let mc := { mc with request_metrics := mc.request_metrics ++ [metric] }
  let mc :=
    { mc with
      provider_metrics := update_provider_metrics_dict mc.provider_metrics metric }
  match dictIncr mc.complexity_stats complexity_level with
  | none => (mc, some "KeyError")
  | some cstats =>
    let mc := { mc with complexity_stats := cstats }
    match update_hourly_stats mc.hourly_stats hour_key metric with
    | (hs, true) => ({ mc with hourly_stats := hs }, some "KeyError")
    | (hs, false) => ({ mc with hourly_stats := hs }, none)

/- ### Support lemmas: nonnegativity of the complexity components -/

theorem ite_nonneg_q {c : Prop} [Decidable c] {a b : ℚ} (ha : 0 ≤ a)
    (hb : 0 ≤ b) : 0 ≤ if c then a else b := by
  split <;> assumption

theorem min_one_unit {x : ℚ} (hx : 0 ≤ x) : 0 ≤ min 1 x ∧ min 1 x ≤ 1 :=
  ⟨le_min (by norm_num) hx, min_le_left _ _⟩

theorem calculate_reasoning_score_nonneg (s : List Char) :
    0 ≤ calculate_reasoning_score s := by
  unfold calculate_reasoning_score
  refine le_min (by norm_num) ?_
  have h1 : (0:ℚ) ≤ min 0.5 ((countKeywords reasoning_keywords s : ℚ) * 0.1) :=
    le_min (by norm_num) (by positivity)
  positivity

theorem calculate_knowledge_score_nonneg (s : List Char) :
    0 ≤ calculate_knowledge_score s := by
  unfold calculate_knowledge_score
  refine le_min (by norm_num) ?_
  have h1 : (0:ℚ) ≤ min 0.6 ((countKeywords knowledge_keywords s : ℚ) * 0.1) :=
    le_min (by norm_num) (by positivity)
  refine add_nonneg (add_nonneg h1 ?_) ?_ <;>
    exact ite_nonneg_q (by norm_num) (by norm_num)

theorem calculate_computation_score_nonneg (s : List Char) :
    0 ≤ calculate_computation_score s := by
  unfold calculate_computation_score
  refine le_min (by norm_num) ?_
  have h1 : (0:ℚ) ≤ min 0.5 ((countKeywords computation_keywords s : ℚ) * 0.15) :=
    le_min (by norm_num) (by positivity)
  refine add_nonneg (add_nonneg (add_nonneg h1 ?_) ?_) ?_ <;>
    exact ite_nonneg_q (by norm_num) (by norm_num)

theorem calculate_coordination_score_nonneg (s : List Char) :
    0 ≤ calculate_coordination_score s := by
  unfold calculate_coordination_score
  refine le_min (by norm_num) ?_
  have h1 : (0:ℚ) ≤ min 0.4 ((countKeywords coordination_keywords s : ℚ) * 0.1) :=
    le_min (by norm_num) (by positivity)
  refine add_nonneg (add_nonneg h1 ?_) ?_ <;>
    exact ite_nonneg_q (by norm_num) (by norm_num)

theorem get_length_modifier_nonneg (s : List Char) :
    0 ≤ get_length_modifier s := by
  unfold get_length_modifier
  dsimp only
  split_ifs <;> norm_num

theorem get_pattern_modifier_nonneg (s : List Char) :
    0 ≤ get_pattern_modifier s := by
  unfold get_pattern_modifier
  refine le_min (by norm_num) ?_
  positivity

theorem get_context_modifier_nonneg (ctx : ComplexityContext) (dim : String) :
    0 ≤ get_context_modifier ctx dim := by
  unfold get_context_modifier
  rcases ctx.complexity_hint with _ | h <;> rcases ctx.domain with _ | d <;>
    dsimp only <;> first
      | (split_ifs <;> norm_num)
      | norm_num

/-- C1: for every content string and optional context, `analyze_complexity`
returns a ComplexityScore whose four axis values each lie in [0,1], whose
`total_score` equals the unweighted mean of the four axes, and whose
`complexity_level` is "low" when the total is below 0.4, "medium" when it is
in [0.4, 0.7), and "high" otherwise. -/
theorem C1_analyze_complexity_bounds (content : List Char)
    (context : Option ComplexityContext) :
    (0 ≤ (analyze_complexity content context).reasoning ∧
      (analyze_complexity content context).reasoning ≤ 1) ∧
    (0 ≤ (analyze_complexity content context).knowledge ∧
      (analyze_complexity content context).knowledge ≤ 1) ∧
    (0 ≤ (analyze_complexity content context).computation ∧
      (analyze_complexity content context).computation ≤ 1) ∧
    (0 ≤ (analyze_complexity content context).coordination ∧
      (analyze_complexity content context).coordination ≤ 1) ∧
    (analyze_complexity content context).total_score =
      ((analyze_complexity content context).reasoning +
        (analyze_complexity content context).knowledge +
        (analyze_complexity content context).computation +
        (analyze_complexity content context).coordination) / 4 ∧
    (analyze_complexity content context).complexity_level =
      (if (analyze_complexity content context).total_score < 0.4 then "low"
       else if (analyze_complexity content context).total_score < 0.7 then "medium"
       else "high") := by
  have hlm := get_length_modifier_nonneg content
  have hpm := get_pattern_modifier_nonneg (content.map Char.toLower)
  have hr := calculate_reasoning_score_nonneg (content.map Char.toLower)
  have hk := calculate_knowledge_score_nonneg (content.map Char.toLower)
  have hc := calculate_computation_score_nonneg (content.map Char.toLower)
  have hco := calculate_coordination_score_nonneg (content.map Char.toLower)
  rcases context with _ | ctx
  · unfold analyze_complexity
    dsimp only []
    refine ⟨min_one_unit (by positivity), min_one_unit (by positivity),
      min_one_unit (by positivity), min_one_unit (by positivity), rfl, rfl⟩
  · have m1 := get_context_modifier_nonneg ctx "reasoning"
    have m2 := get_context_modifier_nonneg ctx "knowledge"
    have m3 := get_context_modifier_nonneg ctx "computation"
    have m4 := get_context_modifier_nonneg ctx "coordination"
    unfold analyze_complexity
    dsimp only []
    refine ⟨min_one_unit (by positivity), min_one_unit (by positivity),
      min_one_unit (by positivity), min_one_unit (by positivity), rfl, rfl⟩

/- ### Support lemmas: association lists -/

theorem getAssoc_setAssoc_self {β : Type} (l : List (String × β)) (k : String)
    (v : β) : getAssoc (setAssoc l k v) k = some v := by
  induction l with
  | nil => simp [setAssoc, getAssoc]
  | cons kv rest ih =>
    by_cases h : kv.1 = k
    · simp [setAssoc, getAssoc, h]
    · simp [setAssoc, getAssoc, h, ih]

theorem getAssoc_setAssoc_ne {β : Type} (l : List (String × β)) (k k' : String)
    (v : β) (hne : k' ≠ k) :
    getAssoc (setAssoc l k v) k' = getAssoc l k' := by
  have hkk : k ≠ k' := Ne.symm hne
  induction l with
  | nil => simp [setAssoc, getAssoc, hkk]
  | cons kv rest ih =>
    by_cases h : kv.1 = k
    · simp [setAssoc, getAssoc, h, hkk]
    · by_cases h2 : kv.1 = k'
      · simp [setAssoc, getAssoc, h, h2, hne]
      · simp [setAssoc, getAssoc, h, h2, ih]

theorem mem_setAssoc {β : Type} (l : List (String × β)) (k : String) (v : β)
    (e : String × β) (he : e ∈ setAssoc l k v) : e = (k, v) ∨ e ∈ l := by
  induction l with
  | nil => simpa [setAssoc] using he
  | cons kv rest ih =>
    by_cases h : kv.1 = k
    · rw [setAssoc] at he
      simp only [h, if_pos] at he
      rcases List.mem_cons.mp he with h1 | h1
      · left; rw [h1, ← h]
      · right; exact List.mem_cons_of_mem _ h1
    · rw [setAssoc] at he
      simp only [h, if_neg, not_false_iff] at he
      rcases List.mem_cons.mp he with h1 | h1
      · right; rw [h1]; exact List.mem_cons_self _ _
      · rcases ih h1 with h2 | h2
        · left; exact h2
        · right; exact List.mem_cons_of_mem _ h2

theorem getAssoc_mem {β : Type} (l : List (String × β)) (k : String) (v : β)
    (h : getAssoc l k = some v) : (k, v) ∈ l := by
  induction l with
  | nil => simp [getAssoc] at h
  | cons kv rest ih =>
    rw [getAssoc] at h
    by_cases heq : kv.1 = k
    · rw [if_pos heq] at h
      have hv : kv.2 = v := Option.some_inj.mp h
      have hkv : kv = (k, v) := Prod.ext heq hv
      rw [← hkv]; exact List.mem_cons_self _ _
    · rw [if_neg heq] at h
      exact List.mem_cons_of_mem _ (ih h)

/- ### C5: the EMA update of update_provider_metrics -/

/-- Performance record read (after lazy creation) at the start of
`update_provider_metrics`. -/
def metricsOf (sel : ProviderSelector) (provider_name : String) :
    ProviderPerformance :=
  match getAssoc sel.performance_metrics provider_name with
  | some m => m
  | none => { name := provider_name }

/-- C5: `update_provider_metrics` applies an exponential moving average with
alpha = 0.1 (new = 0.9*old + 0.1*sample) to avg_response_time,
avg_cost_efficiency and success_rate (a success contributing sample 1.0, a
failure 0.0), and in particular one update with success and response time 2.0
on a fresh record leaves success_rate at 1.0 and sets avg_response_time to
1.1. -/
theorem C5_update_provider_metrics_ema (sel : ProviderSelector) (name : String)
    (rt : ℚ) (succ : Bool) (ce : ℚ) :
    (getAssoc (update_provider_metrics sel name rt succ ce).performance_metrics
        name =
      some { name := (metricsOf sel name).name
             success_rate := 0.9 * (metricsOf sel name).success_rate +
               0.1 * (if succ then 1 else 0)
             avg_response_time := 0.9 * (metricsOf sel name).avg_response_time +
               0.1 * rt
             avg_cost_efficiency :=
               0.9 * (metricsOf sel name).avg_cost_efficiency + 0.1 * ce
             request_count := (metricsOf sel name).request_count + 1 }) ∧
    ((update_provider_metrics { providers := [], performance_metrics := [] }
        "p" 2 true 1).performance_metrics =
      [("p", { name := "p", success_rate := 1, avg_response_time := 1.1,
               avg_cost_efficiency := 1, request_count := 1 })]) := by
  constructor
  · unfold update_provider_metrics metricsOf
    rw [getAssoc_setAssoc_self]
    cases succ <;> norm_num
  · simp only [update_provider_metrics, getAssoc, setAssoc]
    norm_num

/- ### Support lemmas: the filter and selection pipeline -/

theorem bind_ok_red {α β : Type} (a : α) (f : α → Except String β) :
    Except.bind (Except.ok a) f = f a := rfl

theorem bind_error_red {α β : Type} (e : String) (f : α → Except String β) :
    Except.bind (Except.error e) f = Except.error e := rfl

theorem map_ok_red {α β : Type} (a : α) (f : α → β) :
    Except.map f (Except.ok a : Except String α) = Except.ok (f a) := rfl

theorem map_error_red {α β : Type} (e : String) (f : α → β) :
    Except.map f (Except.error e : Except String α) = Except.error e := rfl

theorem filter_available_mem (cs : Option Constraints)
    (l : List ProviderConfig) (l' : List ProviderConfig)
    (h : filter_available_providers cs l = .ok l') :
    ∀ p ∈ l', provider_passes cs p = .ok true ∧ p ∈ l := by
  induction l generalizing l' with
  | nil =>
    rw [filter_available_providers] at h
    cases h
    intro p hp; cases hp
  | cons q rest ih =>
    rw [filter_available_providers] at h
    cases hq : provider_passes cs q with
    | error e => rw [hq] at h; simp [Except.bind] at h
    | ok keep =>
      rw [hq] at h
      cases hrest : filter_available_providers cs rest with
      | error e => rw [hrest] at h; simp [Except.bind, Except.map] at h
      | ok lr =>
        rw [hrest] at h
        simp only [Except.bind, Except.map, Except.ok.injEq] at h
        intro p hp
        rw [← h] at hp
        cases keep with
        | true =>
          simp only [if_pos] at hp
          rcases List.mem_cons.mp hp with h1 | h1
          · subst h1
            exact ⟨hq, List.mem_cons_self _ _⟩
          · rcases ih lr hrest p h1 with ⟨hp1, hp2⟩
            exact ⟨hp1, List.mem_cons_of_mem _ hp2⟩
        | false =>
          simp only [Bool.false_eq_true, if_false] at hp
          rcases ih lr hrest p hp with ⟨hp1, hp2⟩
          exact ⟨hp1, List.mem_cons_of_mem _ hp2⟩

theorem provider_passes_checks (cs : Option Constraints) (p : ProviderConfig)
    (h : provider_passes cs p = .ok true) :
    ¬(p.tier ≠ ProviderTier.unofficial ∧ p.api_key = "") ∧
      ¬(p.health_score < 0.1) := by
  unfold provider_passes at h
  split_ifs at h with h1 h2
  · simp at h
  · simp at h
  · exact ⟨h1, h2⟩

theorem score_providers_mem (sel : ProviderSelector)
    (complexity : ComplexityScore) (ctx : Option SelectionContext)
    (cs : Option Constraints) (l : List ProviderConfig)
    (scored : List (ProviderConfig × ℚ))
    (h : score_providers sel complexity ctx cs l = .ok scored) :
    ∀ x ∈ scored, x.1 ∈ l := by
  induction l generalizing scored with
  | nil =>
    rw [score_providers] at h
    cases h
    intro x hx; cases hx
  | cons q rest ih =>
    rw [score_providers] at h
    cases hq : calculate_provider_score sel q complexity ctx cs with
    | error e => rw [hq] at h; simp [Except.bind] at h
    | ok s =>
      rw [hq] at h
      cases hrest : score_providers sel complexity ctx cs rest with
      | error e => rw [hrest] at h; simp [Except.bind, Except.map] at h
      | ok lr =>
        rw [hrest] at h
        simp only [Except.bind, Except.map, Except.ok.injEq] at h
        intro x hx
        rw [← h] at hx
        rcases List.mem_cons.mp hx with h1 | h1
        · subst h1; exact List.mem_cons_self _ _
        · exact List.mem_cons_of_mem _ (ih lr hrest x h1)

theorem foldl_pick_mem (l : List (ProviderConfig × ℚ))
    (init : ProviderConfig × ℚ) :
    l.foldl (fun best y => if best.2 < y.2 then y else best) init = init ∨
      l.foldl (fun best y => if best.2 < y.2 then y else best) init ∈ l := by
  induction l generalizing init with
  | nil => left; rfl
  | cons y rest ih =>
    rw [List.foldl_cons]
    rcases ih (if init.2 < y.2 then y else init) with h | h
    · rw [h]
      split
      · right; exact List.mem_cons_self _ _
      · left; rfl
    · right; exact List.mem_cons_of_mem _ h

theorem pickBest_mem (l : List (ProviderConfig × ℚ)) (x : ProviderConfig × ℚ)
    (h : pickBest l = some x) : x ∈ l := by
  cases l with
  | nil => simp [pickBest] at h
  | cons a rest =>
    rw [pickBest] at h
    have hx := Option.some_inj.mp h
    rcases foldl_pick_mem rest a with h1 | h1
    · rw [hx] at h1
      rw [h1]; exact List.mem_cons_self _ _
    · rw [hx] at h1
      exact List.mem_cons_of_mem _ h1

/-- C2: `select_provider` never returns a provider whose health_score is
below 0.1, and never returns a provider whose api_key is empty while its
tier is not UNOFFICIAL: the filter step drops such providers before any
scoring happens. -/
theorem C2_select_provider_filters (sel : ProviderSelector)
    (complexity : ComplexityScore) (ctx : Option SelectionContext)
    (cs : Option Constraints) (p : ProviderConfig)
    (h : (select_provider sel complexity ctx cs).1 = .ok (some p)) :
    ¬(p.health_score < 0.1) ∧
      ¬(p.api_key = "" ∧ p.tier ≠ ProviderTier.unofficial) := by
  simp only [select_provider] at h
  cases hf : filter_available_providers cs (sel.providers.map Prod.snd) with
  | error e => rw [hf] at h; exact absurd h (by simp [Except.bind])
  | ok available =>
    rw [hf] at h
    rw [bind_ok_red] at h
    by_cases hav : available.isEmpty
    · rw [if_pos hav] at h; simp at h
    · rw [if_neg hav] at h
      cases hs : score_providers sel complexity ctx cs available with
      | error e => rw [hs] at h; exact absurd h (by simp [Except.map])
      | ok scored =>
        rw [hs, map_ok_red] at h
        simp only [Except.ok.injEq] at h
        cases hpb : pickBest scored with
        | none => rw [hpb] at h; simp at h
        | some x =>
          rw [hpb] at h
          simp at h
          have hx := pickBest_mem scored x hpb
          have hmem := score_providers_mem sel complexity ctx cs available
            scored hs x hx
          have hpass :=
            (filter_available_mem cs _ available hf x.1 hmem).1
          have hchecks := provider_passes_checks cs x.1 hpass
          rw [h] at hchecks
          exact ⟨hchecks.2, fun hc => hchecks.1 ⟨hc.2, hc.1⟩⟩

/-- Concrete provider used by the witnesses. -/
def wProvider : ProviderConfig :=
  { name := "alpha", tier := .official, base_url := "https://a.example",
    api_key := "k", models := ["m1"] }

/-- Concrete selector used by the witnesses. -/
def wSelector : ProviderSelector := ProviderSelector.init [("alpha", wProvider)]

theorem wProvider_passes : provider_passes none wProvider = .ok true := by
  unfold provider_passes
  rw [if_neg (by simp [wProvider]), if_neg (by norm_num [wProvider])]

theorem wFilter : filter_available_providers none [wProvider] = .ok [wProvider] := by
  rw [filter_available_providers, wProvider_passes, filter_available_providers]
  rfl

theorem wScore :
    ∃ s, score_providers wSelector {} none none [wProvider] = .ok [(wProvider, s)] :=
  ⟨_, rfl⟩

theorem wRun : (select_provider wSelector {} none none).1 = .ok (some wProvider) := by
  obtain ⟨s, hs⟩ := wScore
  simp only [select_provider]
  rw [show wSelector.providers.map Prod.snd = [wProvider] from rfl, wFilter,
    bind_ok_red]
  simp only [List.isEmpty_cons, Bool.false_eq_true, if_false]
  rw [hs, map_ok_red]
  rfl

/-- Witness for C2: on a concrete registry the hypothesis of
`C2_select_provider_filters` is satisfiable and the conclusion holds. -/
theorem C2_witness :
    (select_provider wSelector {} none none).1 = .ok (some wProvider) ∧
      (¬(wProvider.health_score < 0.1) ∧
        ¬(wProvider.api_key = "" ∧ wProvider.tier ≠ ProviderTier.unofficial)) :=
  ⟨wRun, C2_select_provider_filters wSelector {} none none wProvider wRun⟩

/- ### C3: empty filter result is an ordinary NONE, not a fault -/

/-- Well-formedness of a constraints dict: every truthy numeric bound is a
number and every listed tier string is a recognized enum value (falsy values
are skipped by the filter and need no shape). -/
def WFConstraints : Option Constraints → Prop
  | none => True
  | some cs =>
    (∀ v, cs.max_cost_per_1k = some v → v.truthy → ∃ q, v = PyVal.num q) ∧
    (∀ v, cs.max_timeout = some v → v.truthy → ∃ q, v = PyVal.num q) ∧
    (∀ ts, cs.allowed_tiers = some ts →
      ∀ t ∈ ts, ∃ tr, ProviderTier.ofString t = Except.ok tr)

theorem parseTiers_wf (ts : List String)
    (h : ∀ t ∈ ts, ∃ tr, ProviderTier.ofString t = Except.ok tr) :
    ∃ l, parseTiers ts = .ok l := by
  induction ts with
  | nil => exact ⟨[], rfl⟩
  | cons t rest ih =>
    obtain ⟨tr, htr⟩ := h t (List.mem_cons_self _ _)
    obtain ⟨l, hl⟩ := ih (fun t' ht' => h t' (List.mem_cons_of_mem _ ht'))
    refine ⟨tr :: l, ?_⟩
    rw [parseTiers, htr, bind_ok_red, hl, map_ok_red]

theorem provider_passes_wf (cs : Option Constraints) (p : ProviderConfig)
    (hwf : WFConstraints cs) : ∃ b, provider_passes cs p = .ok b := by
  unfold provider_passes
  split_ifs
  · exact ⟨false, rfl⟩
  · exact ⟨false, rfl⟩
  · cases cs with
    | none => exact ⟨true, rfl⟩
    | some c =>
      obtain ⟨h1, h2, h3⟩ := hwf
      have hc : ∃ b, checkCost c p = .ok b := by
        unfold checkCost
        cases hv : c.max_cost_per_1k with
        | none => exact ⟨true, rfl⟩
        | some v =>
          dsimp only
          by_cases ht : v.truthy
          · obtain ⟨q, rfl⟩ := h1 v hv ht
            rw [if_pos ht]
            exact ⟨_, rfl⟩
          · rw [if_neg ht]; exact ⟨true, rfl⟩
      have htm : ∃ b, checkTimeout c p = .ok b := by
        unfold checkTimeout
        cases hv : c.max_timeout with
        | none => exact ⟨true, rfl⟩
        | some v =>
          dsimp only
          by_cases ht : v.truthy
          · obtain ⟨q, rfl⟩ := h2 v hv ht
            rw [if_pos ht]
            exact ⟨_, rfl⟩
          · rw [if_neg ht]; exact ⟨true, rfl⟩
      have hti : ∃ b, checkTiers c p = .ok b := by
        unfold checkTiers
        cases hv : c.allowed_tiers with
        | none => exact ⟨true, rfl⟩
        | some ts =>
          dsimp only
          by_cases hts : ts.isEmpty
          · rw [if_pos hts]; exact ⟨true, rfl⟩
          · obtain ⟨l, hl⟩ := parseTiers_wf ts (h3 ts hv)
            rw [if_neg hts, hl, map_ok_red]
            exact ⟨_, rfl⟩
      obtain ⟨b1, hb1⟩ := hc
      obtain ⟨b2, hb2⟩ := htm
      obtain ⟨b3, hb3⟩ := hti
      dsimp only
      rw [hb1, bind_ok_red]
      cases b1 with
      | false => exact ⟨false, rfl⟩
      | true =>
        rw [if_neg (by simp), hb2, bind_ok_red]
        cases b2 with
        | false => exact ⟨false, rfl⟩
        | true =>
          rw [if_neg (by simp), hb3, bind_ok_red]
          cases b3 with
          | false => exact ⟨false, rfl⟩
          | true => rw [if_neg (by simp)]; exact ⟨_, rfl⟩

theorem filter_available_wf (cs : Option Constraints)
    (hwf : WFConstraints cs) (l : List ProviderConfig) :
    ∃ l', filter_available_providers cs l = .ok l' := by
  induction l with
  | nil => exact ⟨[], rfl⟩
  | cons p rest ih =>
    obtain ⟨b, hb⟩ := provider_passes_wf cs p hwf
    obtain ⟨l', hl⟩ := ih
    refine ⟨if b then p :: l' else l', ?_⟩
    rw [filter_available_providers, hb, bind_ok_red, hl, map_ok_red]

/-- C3: with well-formed constraints the filter step never raises, and when
it leaves zero eligible providers, `select_provider` returns an ordinary
`.ok none` (NONE) rather than raising. -/
theorem C3_empty_filter_returns_none (sel : ProviderSelector)
    (complexity : ComplexityScore) (ctx : Option SelectionContext)
    (cs : Option Constraints) (hwf : WFConstraints cs) :
    (∃ l', filter_available_providers cs (sel.providers.map Prod.snd) = .ok l') ∧
      (filter_available_providers cs (sel.providers.map Prod.snd) = .ok [] →
        (select_provider sel complexity ctx cs).1 = .ok none) := by
  refine ⟨filter_available_wf cs hwf _, fun hempty => ?_⟩
  simp only [select_provider]
  rw [hempty, bind_ok_red]
  rfl

/-- Witness for C3: an empty registry with no constraints satisfies the
hypotheses, the filter succeeds with the empty list, and `select_provider`
returns NONE. -/
theorem C3_witness :
    WFConstraints none ∧
      (∃ l', filter_available_providers none
          ((ProviderSelector.mk [] []).providers.map Prod.snd) = .ok l') ∧
      (select_provider (ProviderSelector.mk [] []) {} none none).1 = .ok none :=
  ⟨trivial,
    (C3_empty_filter_returns_none (ProviderSelector.mk [] []) {} none none
      trivial).1,
    (C3_empty_filter_returns_none (ProviderSelector.mk [] []) {} none none
      trivial).2 rfl⟩

/- ### C8: selection performs no writes to shared state -/

/-- C8: `select_provider` leaves the shared state unchanged: the registry and
every performance record hold exactly the same values after the call as
before it. -/
theorem C8_select_provider_no_mutation (sel : ProviderSelector)
    (complexity : ComplexityScore) (ctx : Option SelectionContext)
    (cs : Option Constraints) :
    ((select_provider sel complexity ctx cs).2).providers = sel.providers ∧
      ((select_provider sel complexity ctx cs).2).performance_metrics =
        sel.performance_metrics :=
  ⟨rfl, rfl⟩

/- ### C9: invariants of the performance tracker -/

/-- Arguments of one `update_provider_metrics` call. -/
structure UpdateCall where
  provider_name : String
  response_time : ℚ
  success : Bool
  cost_efficiency : ℚ

/-- Fold a sequence of update calls over the selector state. -/
def applyCalls (sel : ProviderSelector) : List UpdateCall → ProviderSelector
  | [] => sel
  | c :: rest =>
    applyCalls (update_provider_metrics sel c.provider_name c.response_time
      c.success c.cost_efficiency) rest

/-- Invariant: every tracked record keeps success_rate and
avg_cost_efficiency inside [0,1]. -/
def PerfInv (sel : ProviderSelector) : Prop :=
  ∀ e ∈ sel.performance_metrics,
    0 ≤ e.2.success_rate ∧ e.2.success_rate ≤ 1 ∧
      0 ≤ e.2.avg_cost_efficiency ∧ e.2.avg_cost_efficiency ≤ 1

/-- request_count of a provider record (0 for unseen providers). -/
def reqCount (sel : ProviderSelector) (n : String) : ℕ :=
  match getAssoc sel.performance_metrics n with
  | some m => m.request_count
  | none => 0

theorem init_perfInv (ps : List (String × ProviderConfig)) :
    PerfInv (ProviderSelector.init ps) := by
  intro e he
  unfold ProviderSelector.init at he
  dsimp only at he
  obtain ⟨kv, _, rfl⟩ := List.mem_map.mp he
  norm_num

theorem update_preserves_inv (sel : ProviderSelector) (n : String) (rt : ℚ)
    (su : Bool) (ce : ℚ) (hce0 : 0 ≤ ce) (hce1 : ce ≤ 1) (hinv : PerfInv sel) :
    PerfInv (update_provider_metrics sel n rt su ce) := by
  have hold : 0 ≤ (metricsOf sel n).success_rate ∧
      (metricsOf sel n).success_rate ≤ 1 ∧
      0 ≤ (metricsOf sel n).avg_cost_efficiency ∧
      (metricsOf sel n).avg_cost_efficiency ≤ 1 := by
    unfold metricsOf
    cases hg : getAssoc sel.performance_metrics n with
    | none => norm_num
    | some m => exact hinv (n, m) (getAssoc_mem _ _ _ hg)
  intro e he
  unfold update_provider_metrics at he
  dsimp only at he
  rcases mem_setAssoc _ _ _ e he with h | h
  · subst h
    obtain ⟨o1, o2, o3, o4⟩ := hold
    unfold metricsOf at o1 o2 o3 o4
    refine ⟨?_, ?_, ?_, ?_⟩ <;>
      (try dsimp only) <;>
        (first
          | (split <;> linarith)
          | linarith)
  · exact hinv e h

theorem update_reqCount (sel : ProviderSelector) (n : String) (rt : ℚ)
    (su : Bool) (ce : ℚ) :
    reqCount (update_provider_metrics sel n rt su ce) n = reqCount sel n + 1 := by
  unfold reqCount update_provider_metrics
  dsimp only
  rw [getAssoc_setAssoc_self]
  cases hg : getAssoc sel.performance_metrics n <;> dsimp only

theorem update_other_unchanged (sel : ProviderSelector) (n n' : String)
    (rt : ℚ) (su : Bool) (ce : ℚ) (hne : n' ≠ n) :
    getAssoc (update_provider_metrics sel n rt su ce).performance_metrics n' =
      getAssoc sel.performance_metrics n' := by
  unfold update_provider_metrics
  dsimp only
  exact getAssoc_setAssoc_ne _ _ _ _ hne

/-- C9: starting from the defaults of 1.0, every performance record keeps
success_rate and avg_cost_efficiency in [0,1] under any sequence of
`update_provider_metrics` calls whose cost_efficiency samples lie in [0,1],
and each call increments request_count of exactly the named provider by
exactly 1. -/
theorem C9_update_metrics_invariants :
    (∀ ps, PerfInv (ProviderSelector.init ps)) ∧
      (∀ sel calls, PerfInv sel →
        (∀ c ∈ calls, 0 ≤ c.cost_efficiency ∧ c.cost_efficiency ≤ 1) →
        PerfInv (applyCalls sel calls)) ∧
      (∀ sel (c : UpdateCall),
        reqCount (update_provider_metrics sel c.provider_name c.response_time
          c.success c.cost_efficiency) c.provider_name =
            reqCount sel c.provider_name + 1 ∧
        ∀ n', n' ≠ c.provider_name →
          getAssoc (update_provider_metrics sel c.provider_name c.response_time
            c.success c.cost_efficiency).performance_metrics n' =
              getAssoc sel.performance_metrics n') := by
  refine ⟨init_perfInv, ?_, ?_⟩
  · intro sel calls
    induction calls generalizing sel with
    | nil => intro hinv _; exact hinv
    | cons c rest ih =>
      intro hinv hce
      have hc := hce c (List.mem_cons_self _ _)
      exact ih _ (update_preserves_inv sel c.provider_name c.response_time
          c.success c.cost_efficiency hc.1 hc.2 hinv)
        (fun c' hc' => hce c' (List.mem_cons_of_mem _ hc'))
  · intro sel c
    exact ⟨update_reqCount sel c.provider_name c.response_time c.success
        c.cost_efficiency,
      fun n' hne => update_other_unchanged sel c.provider_name n'
        c.response_time c.success c.cost_efficiency hne⟩

/-- Witness for C9: a concrete one-call sequence satisfies the hypotheses and
the conclusions hold for it. -/
theorem C9_witness :
    PerfInv (applyCalls (ProviderSelector.init []) [⟨"p", 2, true, 1⟩]) ∧
      reqCount (update_provider_metrics (ProviderSelector.init []) "p" 2 true 1)
          "p" =
        reqCount (ProviderSelector.init []) "p" + 1 :=
  ⟨C9_update_metrics_invariants.2.1 (ProviderSelector.init []) [⟨"p", 2, true, 1⟩]
      (C9_update_metrics_invariants.1 [])
      (by intro c hc; rw [List.mem_singleton] at hc; subst hc; norm_num),
    (C9_update_metrics_invariants.2.2 (ProviderSelector.init [])
      ⟨"p", 2, true, 1⟩).1⟩

/- ### C4: cost monotonicity of the scoring -/

/-- The budget_weight entry, when present and truthy, is a nonnegative
number (absent or falsy entries are fine). -/
def BudgetNonneg : Option Constraints → Prop
  | none => True
  | some cs =>
    match cs.budget_weight with
    | none => True
    | some (PyVal.num q) => q ≠ 0 → 0 ≤ q
    | some (PyVal.str s) => s = ""

/-- The budget_weight entry, when present and truthy, is a positive number. -/
def BudgetPos : Option Constraints → Prop
  | none => True
  | some cs =>
    match cs.budget_weight with
    | none => True
    | some (PyVal.num q) => q ≠ 0 → 0 < q
    | some (PyVal.str s) => s = ""

theorem cost_score_mono (p : ProviderConfig) (c1 c2 : ℚ)
    (cs : Option Constraints) (hlt : c1 < c2) (hbw : BudgetNonneg cs)
    (s1 s2 : ℚ)
    (h1 : calculate_cost_score { p with cost_per_1k_tokens := c1 } cs = .ok s1)
    (h2 : calculate_cost_score { p with cost_per_1k_tokens := c2 } cs = .ok s2) :
    s2 ≤ s1 ∧ (c2 < 0.01 → BudgetPos cs → s2 < s1) := by
  have hdiv : c1 / (0.01 : ℚ) < c2 / 0.01 := by
    apply div_lt_div_of_pos_right hlt
    norm_num
  have hr : max (0:ℚ) (1 - c2 / 0.01) ≤ max 0 (1 - c1 / 0.01) :=
    max_le_max le_rfl (by linarith)
  have hrs : c2 < 0.01 →
      max (0:ℚ) (1 - c2 / 0.01) < max 0 (1 - c1 / 0.01) := by
    intro hc2
    have hp2 : (0:ℚ) < 1 - c2 / 0.01 := by
      have := (div_lt_one (show (0:ℚ) < 0.01 by norm_num)).mpr hc2
      linarith
    have hp1 : (0:ℚ) < 1 - c1 / 0.01 := by linarith
    rw [max_eq_right hp1.le, max_eq_right hp2.le]
    linarith
  unfold calculate_cost_score at h1 h2
  dsimp only at h1 h2
  cases cs with
  | none =>
    dsimp only at h1 h2
    rw [Except.ok.injEq] at h1 h2
    subst h1; subst h2
    exact ⟨hr, fun hc2 _ => hrs hc2⟩
  | some c =>
    dsimp only at h1 h2
    unfold BudgetNonneg at hbw
    dsimp only at hbw
    cases hb : c.budget_weight with
    | none =>
      rw [hb] at h1 h2
      dsimp only at h1 h2
      rw [Except.ok.injEq] at h1 h2
      subst h1; subst h2
      exact ⟨hr, fun hc2 _ => hrs hc2⟩
    | some v =>
      rw [hb] at h1 h2 hbw
      dsimp only at h1 h2
      cases v with
      | num q =>
        dsimp only at hbw
        by_cases ht : (PyVal.num q).truthy
        · rw [if_pos ht] at h1 h2
          dsimp only at h1 h2
          rw [Except.ok.injEq] at h1 h2
          subst h1; subst h2
          have hq0 : q ≠ 0 := by simpa [PyVal.truthy] using ht
          have hq : 0 ≤ q := hbw hq0
          constructor
          · exact mul_le_mul_of_nonneg_right hr hq
          · intro hc2 hpos
            unfold BudgetPos at hpos
            dsimp only at hpos
            rw [hb] at hpos
            dsimp only at hpos
            exact mul_lt_mul_of_pos_right (hrs hc2) (hpos hq0)
        · rw [if_neg ht] at h1 h2
          rw [Except.ok.injEq] at h1 h2
          subst h1; subst h2
          exact ⟨hr, fun hc2 _ => hrs hc2⟩
      | str st =>
        by_cases ht : (PyVal.str st).truthy
        · rw [if_pos ht] at h1
          simp at h1
        · rw [if_neg ht] at h1 h2
          rw [Except.ok.injEq] at h1 h2
          subst h1; subst h2
          exact ⟨hr, fun hc2 _ => hrs hc2⟩

theorem cost_weight_pos (ctx : Option SelectionContext) :
    0 < (selection_weights ctx).2.2.1 := by
  cases ctx with
  | none => norm_num [selection_weights]
  | some c =>
    unfold selection_weights
    dsimp only
    split_ifs <;> norm_num

/-- C4 counterexample: two providers identical except in cost (0.02 vs 0.03)
have equal cost-axis scores (the cost score clamps at 0 from 0.01 on), so
the strictly-larger cost does not get a strictly smaller cost score. -/
theorem C4_counterexample :
    ({ wProvider with cost_per_1k_tokens := 0.02 } : ProviderConfig).cost_per_1k_tokens <
      ({ wProvider with cost_per_1k_tokens := 0.03 } : ProviderConfig).cost_per_1k_tokens ∧
    calculate_cost_score { wProvider with cost_per_1k_tokens := 0.03 } none =
      calculate_cost_score { wProvider with cost_per_1k_tokens := 0.02 } none ∧
    calculate_cost_score { wProvider with cost_per_1k_tokens := 0.02 } none =
      .ok 0 := by
  refine ⟨by norm_num, ?_, ?_⟩
  · show Except.ok (max (0:ℚ) (1 - 0.03 / 0.01)) =
      Except.ok (max (0:ℚ) (1 - 0.02 / 0.01))
    rw [max_eq_left (by norm_num), max_eq_left (by norm_num)]
  · show Except.ok (max (0:ℚ) (1 - 0.02 / 0.01)) = Except.ok 0
    rw [max_eq_left (by norm_num)]

/-- C4 (amended): for providers identical except in cost_per_1k_tokens, the
one with the strictly larger cost has a cost-axis score that is no larger —
strictly smaller when the larger cost is below the 0.01 cap and any truthy
budget_weight is positive — and a total selection score that is no larger
(given any truthy budget_weight is a nonnegative number). -/
theorem C4_cost_monotone (p : ProviderConfig) (c1 c2 : ℚ)
    (sel : ProviderSelector) (complexity : ComplexityScore)
    (ctx : Option SelectionContext) (cs : Option Constraints)
    (hlt : c1 < c2) (hbw : BudgetNonneg cs) :
    (∀ s1 s2,
      calculate_cost_score { p with cost_per_1k_tokens := c1 } cs = .ok s1 →
      calculate_cost_score { p with cost_per_1k_tokens := c2 } cs = .ok s2 →
      s2 ≤ s1 ∧ (c2 < 0.01 → BudgetPos cs → s2 < s1)) ∧
    (∀ t1 t2,
      calculate_provider_score sel { p with cost_per_1k_tokens := c1 }
        complexity ctx cs = .ok t1 →
      calculate_provider_score sel { p with cost_per_1k_tokens := c2 }
        complexity ctx cs = .ok t2 →
      t2 ≤ t1) := by
  refine ⟨fun s1 s2 h1 h2 => cost_score_mono p c1 c2 cs hlt hbw s1 s2 h1 h2, ?_⟩
  intro t1 t2 ht1 ht2
  unfold calculate_provider_score at ht1 ht2
  dsimp only at ht1 ht2
  cases hcs1 : calculate_cost_score { p with cost_per_1k_tokens := c1 } cs with
  | error e => rw [hcs1, map_error_red] at ht1; cases ht1
  | ok s1 =>
    cases hcs2 : calculate_cost_score { p with cost_per_1k_tokens := c2 } cs with
    | error e => rw [hcs2, map_error_red] at ht2; cases ht2
    | ok s2 =>
      rw [hcs1, map_ok_red, Except.ok.injEq] at ht1
      rw [hcs2, map_ok_red, Except.ok.injEq] at ht2
      try dsimp only at ht1 ht2
      have hs := (cost_score_mono p c1 c2 cs hlt hbw s1 s2 hcs1 hcs2).1
      have hw := cost_weight_pos ctx
      have hcap : calculate_capability_score
          { p with cost_per_1k_tokens := c2 } complexity =
          calculate_capability_score { p with cost_per_1k_tokens := c1 }
            complexity := rfl
      have hperf : calculate_performance_score sel
          { p with cost_per_1k_tokens := c2 } =
          calculate_performance_score sel { p with cost_per_1k_tokens := c1 } :=
        rfl
      have hrel : calculate_reliability_score
          { p with cost_per_1k_tokens := c2 } =
          calculate_reliability_score { p with cost_per_1k_tokens := c1 } := rfl
      rw [← ht1, ← ht2, hcap, hperf, hrel]
      have := mul_le_mul_of_nonneg_right hs hw.le
      linarith

/-- Witness for C4: the amended theorem applied at concrete providers with
costs 0.001 < 0.002 under no constraints. -/
theorem C4_witness :
    ((0.001 : ℚ) < 0.002 ∧ BudgetNonneg none) ∧
      ((0.8 : ℚ) ≤ 0.9 ∧ ((0.002 : ℚ) < 0.01 → BudgetPos none → (0.8 : ℚ) < 0.9)) := by
  have hs1 : calculate_cost_score { wProvider with cost_per_1k_tokens := 0.001 }
      none = .ok 0.9 := by
    show Except.ok (max (0:ℚ) (1 - 0.001 / 0.01)) = Except.ok 0.9
    rw [max_eq_right (by norm_num), show (1:ℚ) - 0.001 / 0.01 = 0.9 by norm_num]
  have hs2 : calculate_cost_score { wProvider with cost_per_1k_tokens := 0.002 }
      none = .ok 0.8 := by
    show Except.ok (max (0:ℚ) (1 - 0.002 / 0.01)) = Except.ok 0.8
    rw [max_eq_right (by norm_num), show (1:ℚ) - 0.002 / 0.01 = 0.8 by norm_num]
  exact ⟨⟨by norm_num, trivial⟩,
    (C4_cost_monotone wProvider 0.001 0.002 wSelector {} none none
        (by norm_num) trivial).1 0.9 0.8 hs1 hs2⟩

/- ### C6: malformed constraint values abort the selection -/

theorem filter_error_of_mem (cs : Option Constraints) (l : List ProviderConfig)
    (p : ProviderConfig) (hp : p ∈ l) (e : String)
    (he : provider_passes cs p = .error e) :
    ∃ e', filter_available_providers cs l = .error e' := by
  induction l with
  | nil => cases hp
  | cons q rest ih =>
    rw [filter_available_providers]
    cases hq : provider_passes cs q with
    | error e2 => exact ⟨e2, by rw [bind_error_red]⟩
    | ok b =>
      rcases List.mem_cons.mp hp with h1 | h1
      · subst h1; rw [hq] at he; cases he
      · obtain ⟨e', he'⟩ := ih h1
        exact ⟨e', by rw [bind_ok_red, he', map_error_red]⟩

theorem checkTiers_error (c : Constraints) (p : ProviderConfig)
    (ts : List String) (hts : c.allowed_tiers = some ts)
    (hne : ts.isEmpty = false) (e : String)
    (hparse : parseTiers ts = .error e) : checkTiers c p = .error e := by
  unfold checkTiers
  rw [hts]
  dsimp only
  rw [if_neg (by simp [hne]), hparse, map_error_red]

theorem provider_passes_tier_error (c : Constraints) (p : ProviderConfig)
    (hapi : ¬(p.tier ≠ ProviderTier.unofficial ∧ p.api_key = ""))
    (hhealth : ¬(p.health_score < 0.1))
    (hcost : checkCost c p = .ok true)
    (htimeout : checkTimeout c p = .ok true)
    (e : String) (htiers : checkTiers c p = .error e) :
    provider_passes (some c) p = .error e := by
  unfold provider_passes
  rw [if_neg hapi, if_neg hhealth]
  dsimp only
  rw [hcost, bind_ok_red, if_neg (by simp), htimeout, bind_ok_red,
    if_neg (by simp), htiers, bind_error_red]

/-- Constraints dict with a malformed (unrecognized) tier string. -/
def badConstraints : Constraints := { allowed_tiers := some ["premium"] }

/-- C6 counterexample: with an unrecognized tier string in allowed_tiers,
`select_provider` raises ValueError instead of ignoring the malformed field
and completing the filtering. -/
theorem C6_counterexample :
    (select_provider wSelector {} none (some badConstraints)).1 =
      .error "ValueError" := by
  have hpass : provider_passes (some badConstraints) wProvider =
      .error "ValueError" := by
    unfold provider_passes
    rw [if_neg (by simp [wProvider]), if_neg (by norm_num [wProvider])]
    rfl
  simp only [select_provider]
  rw [show wSelector.providers.map Prod.snd = [wProvider] from rfl,
    filter_available_providers, hpass, bind_error_red, bind_error_red]

/-- C6 (amended): a malformed constraint value is not ignored per-field:
whenever the allowed_tiers constraint is a non-empty list containing an
unrecognized tier string and some registered provider reaches the tier
check (it passes the api-key, health, cost and timeout checks), the raised
ValueError propagates and `select_provider` aborts with an error instead of
completing the filtering. -/
theorem C6_malformed_tier_aborts (sel : ProviderSelector)
    (complexity : ComplexityScore) (ctx : Option SelectionContext)
    (c : Constraints) (p : ProviderConfig)
    (hp : p ∈ sel.providers.map Prod.snd)
    (hapi : ¬(p.tier ≠ ProviderTier.unofficial ∧ p.api_key = ""))
    (hhealth : ¬(p.health_score < 0.1))
    (hcost : checkCost c p = .ok true)
    (htimeout : checkTimeout c p = .ok true)
    (ts : List String) (hts : c.allowed_tiers = some ts)
    (hne : ts.isEmpty = false) (e : String)
    (hparse : parseTiers ts = .error e) :
    ∃ e', (select_provider sel complexity ctx (some c)).1 = .error e' := by
  have hpe := provider_passes_tier_error c p hapi hhealth hcost htimeout e
    (checkTiers_error c p ts hts hne e hparse)
  obtain ⟨e', he'⟩ := filter_error_of_mem (some c) _ p hp e hpe
  refine ⟨e', ?_⟩
  simp only [select_provider]
  rw [he', bind_error_red]

/-- Witness for C6: the amended theorem applied to a concrete registry and a
concrete malformed constraints dict. -/
theorem C6_witness :
    wProvider ∈ wSelector.providers.map Prod.snd ∧
      ∃ e', (select_provider wSelector {} none (some badConstraints)).1 =
        .error e' :=
  ⟨List.mem_singleton.mpr rfl,
    C6_malformed_tier_aborts wSelector {} none badConstraints wProvider
      (List.mem_singleton.mpr rfl) (by simp [wProvider])
      (by norm_num [wProvider]) rfl rfl ["premium"] rfl rfl "ValueError" rfl⟩

/- ### C7: the proper-noun bonus of the knowledge score -/

theorem toLower_not_upperAZ (c : Char) : isUpperAZ (Char.toLower c) = false := by
  unfold Char.toLower
  dsimp only
  split_ifs with h
  · have hv : Nat.isValidChar (c.toNat + 32) := Or.inl (by omega)
    have ht : (Char.ofNat (c.toNat + 32)).toNat = c.toNat + 32 := by
      rw [Char.ofNat, dif_pos hv]
      rfl
    unfold isUpperAZ
    rw [ht]
    simp only [Bool.and_eq_false_iff, decide_eq_false_iff_not]
    omega
  · unfold isUpperAZ
    simp only [Bool.and_eq_false_iff, decide_eq_false_iff_not]
    omega

theorem pnCount_toLower (b : Bool) (s : List Char) :
    pnCount b (s.map Char.toLower) = 0 := by
  induction s generalizing b with
  | nil => rfl
  | cons c rest ih =>
    rw [List.map_cons, pnCount, toLower_not_upperAZ]
    simp only [Bool.false_and, Bool.false_eq_true, if_false, Nat.zero_add]
    exact ih _

/-- C7 (code bug): `analyze_complexity` lowercases the content before calling
`_calculate_knowledge_score`, and the proper-noun regex `\b[A-Z][a-z]+\b`
can never match a lowercased string, so the +0.2 proper-noun bonus is
unreachable; in particular the content
"Tell me about Paris London Berlin Tokyo", which has more than three
capitalized proper-noun words, still gets knowledge axis 0 instead of the
claimed 0.2-higher base score. -/
theorem C7_proper_noun_bonus_dead :
    (∀ content : List Char, pnCount false (content.map Char.toLower) = 0) ∧
      3 < pnCount false "Tell me about Paris London Berlin Tokyo".toList ∧
      (analyze_complexity "Tell me about Paris London Berlin Tokyo".toList
          none).knowledge = 0 := by
  refine ⟨fun content => pnCount_toLower false content, by decide, ?_⟩
  have hk : calculate_knowledge_score
      ("Tell me about Paris London Berlin Tokyo".toList.map Char.toLower) = 0 := by
    unfold calculate_knowledge_score
    rw [show countKeywords knowledge_keywords
        ("Tell me about Paris London Berlin Tokyo".toList.map Char.toLower) = 0
      from by decide]
    rw [if_neg (by decide), if_neg (by decide)]
    norm_num
  unfold analyze_complexity
  dsimp only
  rw [hk, zero_mul, zero_mul, min_eq_right (by norm_num : (0:ℚ) ≤ 1)]

/- ### C10: KeyError behaviour of record_request -/

theorem getAssoc_nil {β : Type} (k : String) :
    getAssoc ([] : List (String × β)) k = none := rfl

theorem getAssoc_cons_ne {β : Type} (k k' : String) (v : β)
    (l : List (String × β)) (h : k' ≠ k) :
    getAssoc ((k', v) :: l) k = getAssoc l k := by
  rw [getAssoc, if_neg h]

/-- Shape of the three-key complexity counters. -/
theorem keys_shape (l : List (String × ℕ))
    (h : l.map Prod.fst = ["low", "medium", "high"]) :
    ∃ a b c, l = [("low", a), ("medium", b), ("high", c)] := by
  rcases l with _ | ⟨⟨k1, a⟩, _ | ⟨⟨k2, b⟩, _ | ⟨⟨k3, c⟩, rest⟩⟩⟩ <;>
    simp at h
  obtain ⟨h1, h2, h3, h4⟩ := h
  exact ⟨a, b, c, by rw [h1, h2, h3, h4]⟩

theorem dictIncr_good (l : List (String × ℕ))
    (h : l.map Prod.fst = ["low", "medium", "high"]) (k : String)
    (hk : k = "low" ∨ k = "medium" ∨ k = "high") :
    ∃ l', dictIncr l k = some l' ∧
      l'.map Prod.fst = ["low", "medium", "high"] := by
  obtain ⟨a, b, c, rfl⟩ := keys_shape l h
  rcases hk with rfl | rfl | rfl <;> exact ⟨_, rfl, rfl⟩

theorem dictIncr_bad (l : List (String × ℕ))
    (h : l.map Prod.fst = ["low", "medium", "high"]) (k : String)
    (hk : k ≠ "low" ∧ k ≠ "medium" ∧ k ≠ "high") :
    dictIncr l k = none := by
  obtain ⟨a, b, c, rfl⟩ := keys_shape l h
  unfold dictIncr
  rw [getAssoc_cons_ne _ _ _ _ (fun hc => hk.1 hc.symm),
    getAssoc_cons_ne _ _ _ _ (fun hc => hk.2.1 hc.symm),
    getAssoc_cons_ne _ _ _ _ (fun hc => hk.2.2 hc.symm), getAssoc_nil]

theorem update_hourly_ok (hs : List (String × HourStats)) (hour_key : String)
    (m : RequestMetric)
    (hwf : ∀ e ∈ hs, e.2.complexity.map Prod.fst = ["low", "medium", "high"])
    (hk : m.complexity_level = "low" ∨ m.complexity_level = "medium" ∨
      m.complexity_level = "high") :
    (update_hourly_stats hs hour_key m).2 = false := by
  unfold update_hourly_stats
  cases hg : getAssoc hs hour_key with
  | none =>
    dsimp only
    rw [getAssoc_setAssoc_self]
    dsimp only
    obtain ⟨l', hl', _⟩ :=
      dictIncr_good [("low", 0), ("medium", 0), ("high", 0)] rfl _ hk
    rw [hl']
  | some st =>
    dsimp only
    rw [hg]
    dsimp only
    obtain ⟨l', hl', _⟩ :=
      dictIncr_good st.complexity (hwf (hour_key, st) (getAssoc_mem _ _ _ hg)) _ hk
    rw [hl']

/-- C10: `record_request` raises KeyError exactly when its complexity_level
argument is not one of "low", "medium", "high" (the complexity counter has
no default for other keys) and never raises for those three; the
per-request metric append and the provider aggregate update run before the
counter increment, so on a raise the metrics log and provider aggregates
are already mutated while the complexity and hourly stats are not. -/
theorem C10_record_request_keyerror (mc : MetricsCollector) (tstamp : ℚ)
    (hour_key provider_name model : String) (success : Bool)
    (response_time cost : ℚ) (input_tokens output_tokens : ℕ)
    (complexity_level : String) (error_type : Option String)
    (hwf1 : mc.complexity_stats.map Prod.fst = ["low", "medium", "high"])
    (hwf2 : ∀ e ∈ mc.hourly_stats,
      e.2.complexity.map Prod.fst = ["low", "medium", "high"]) :
    ((complexity_level = "low" ∨ complexity_level = "medium" ∨
        complexity_level = "high") →
      (record_request mc tstamp hour_key provider_name model success
        response_time cost input_tokens output_tokens complexity_level
        error_type).2 = none) ∧
    ((complexity_level ≠ "low" ∧ complexity_level ≠ "medium" ∧
        complexity_level ≠ "high") →
      (record_request mc tstamp hour_key provider_name model success
        response_time cost input_tokens output_tokens complexity_level
        error_type).2 = some "KeyError" ∧
      (record_request mc tstamp hour_key provider_name model success
        response_time cost input_tokens output_tokens complexity_level
        error_type).1.request_metrics =
        mc.request_metrics ++ [⟨tstamp, provider_name, model, success,
          response_time, cost, input_tokens, output_tokens, complexity_level,
          error_type⟩] ∧
      (record_request mc tstamp hour_key provider_name model success
        response_time cost input_tokens output_tokens complexity_level
        error_type).1.provider_metrics =
        update_provider_metrics_dict mc.provider_metrics
          ⟨tstamp, provider_name, model, success, response_time, cost,
            input_tokens, output_tokens, complexity_level, error_type⟩ ∧
      (record_request mc tstamp hour_key provider_name model success
        response_time cost input_tokens output_tokens complexity_level
        error_type).1.complexity_stats = mc.complexity_stats ∧
      (record_request mc tstamp hour_key provider_name model success
        response_time cost input_tokens output_tokens complexity_level
        error_type).1.hourly_stats = mc.hourly_stats) := by
  constructor
  · intro hk
    unfold record_request
    dsimp only
    obtain ⟨cstats, hc, _⟩ := dictIncr_good mc.complexity_stats hwf1
      complexity_level hk
    rw [hc]
    dsimp only
    have hflag := update_hourly_ok mc.hourly_stats hour_key
      ⟨tstamp, provider_name, model, success, response_time, cost,
        input_tokens, output_tokens, complexity_level, error_type⟩ hwf2 hk
    cases hu : update_hourly_stats mc.hourly_stats hour_key
        ⟨tstamp, provider_name, model, success, response_time, cost,
          input_tokens, output_tokens, complexity_level, error_type⟩ with
    | mk hs2 flag =>
      rw [hu] at hflag
      dsimp only at hflag
      subst hflag
      rfl
  · intro hk
    unfold record_request
    dsimp only
    rw [dictIncr_bad mc.complexity_stats hwf1 complexity_level hk]
    exact ⟨rfl, rfl, rfl, rfl, rfl⟩

/-- Witness for C10: a fresh collector satisfies the well-formedness
hypotheses, and a call with complexity_level "extreme" raises KeyError while
leaving the complexity counters untouched. -/
theorem C10_witness :
    (({} : MetricsCollector).complexity_stats.map Prod.fst =
        ["low", "medium", "high"]) ∧
      (record_request {} 0 "h" "p" "m" true 1 0 0 0 "extreme" none).2 =
        some "KeyError" ∧
      (record_request {} 0 "h" "p" "m" true 1 0 0 0 "extreme" none).1.complexity_stats =
        ({} : MetricsCollector).complexity_stats := by
  have h := (C10_record_request_keyerror {} 0 "h" "p" "m" true 1 0 0 0
    "extreme" none rfl (by intro e he; cases he)).2
    ⟨by decide, by decide, by decide⟩
  exact ⟨rfl, h.1, h.2.2.2.1⟩
